import Mathlib

/-!
Verification development for the `rust_cli_timer` repository
(`src/main.rs`): the active-timer registry (SQLite table
`active_timers`), the live monitor (`show_active_timer_db`), and the
timer lifecycle engine (`run_timer`).

Modelling conventions:
* The SQLite table `active_timers(id, pid, started, duration, message)`
  is a list of `ActiveTimerRecord`s together with the AUTOINCREMENT
  sequence counter `nextId` (SQLite's `sqlite_sequence` value + 1).
  `INTEGER PRIMARY KEY AUTOINCREMENT` assigns each inserted row the id
  `nextId` and bumps the counter; the counter never decreases, so ids
  are never reused.
* Timestamps handled by the monitor are whole seconds (the `started`
  column is formatted as `%Y-%m-%d %H:%M:%S`); the external collaborators
  `humantime::parse_duration` and `chrono::NaiveDateTime::parse_from_str`
  are modelled as function parameters `String → Option Nat` (duration in
  seconds) and `String → Option Int` (timestamp in seconds).
-/

/-- A row of the `active_timers` table (`id, pid, started, duration, message`);
`durationSpec` is the `duration` column, the original duration string. -/
structure ActiveTimerRecord where
  id : Nat
  pid : Int
  started : String
  durationSpec : String
  message : String
deriving DecidableEq, Repr

/-- The `active_timers` table plus its AUTOINCREMENT sequence counter. -/
structure Registry where
  nextId : Nat
  rows : List ActiveTimerRecord
deriving DecidableEq, Repr

/-- A freshly created store (`init_db` with no pre-existing file):
no rows, AUTOINCREMENT starts assigning ids at 1. -/
def init_db : Registry := { nextId := 1, rows := [] }

/-- `register_active_timer_db`: INSERT INTO active_timers (pid, started,
duration, message); returns the updated table and `last_insert_rowid`. -/
def register_active_timer_db (r : Registry) (pid : Int)
    (started durationSpec message : String) : Registry × Nat :=
  let row : ActiveTimerRecord :=
    { id := r.nextId, pid := pid, started := started,
      durationSpec := durationSpec, message := message }
  ({ nextId := r.nextId + 1, rows := r.rows ++ [row] }, r.nextId)

/-- `unregister_active_timer_db`: DELETE FROM active_timers WHERE id = ?1. -/
def unregister_active_timer_db (r : Registry) (activeId : Nat) : Registry :=
  { r with rows := r.rows.filter (fun row => decide (row.id ≠ activeId)) }

/-- Comparison used by the monitor's `SELECT ... ORDER BY id`. -/
def idLe (a b : ActiveTimerRecord) : Prop := a.id ≤ b.id

instance : DecidableRel idLe := fun a b => (inferInstance : Decidable (a.id ≤ b.id))

instance : IsTotal ActiveTimerRecord idLe := ⟨fun a b => Nat.le_total a.id b.id⟩

instance : IsTrans ActiveTimerRecord idLe := ⟨fun _ _ _ => Nat.le_trans⟩

/-- `listActive`: the snapshot `SELECT id, pid, started, duration, message
FROM active_timers ORDER BY id` taken by the monitor each frame. -/
def listActive (r : Registry) : List ActiveTimerRecord :=
  List.insertionSort idLe r.rows

/-- A row of the append-only `timer_history` table. -/
structure HistoryEntry where
  timestamp : String
  duration : String
  message : String
  fg : Bool
deriving DecidableEq, Repr

/-- `log_timer_creation_db`: INSERT INTO timer_history (timestamp,
duration, message, fg). -/
def log_timer_creation_db (h : List HistoryEntry)
    (timestamp duration message : String) (fg : Bool) : List HistoryEntry :=
  h ++ [{ timestamp := timestamp, duration := duration, message := message, fg := fg }]

/-- `get_snooze_duration_and_str`: reads the SNOOZE_TIME environment
variable (`envVar`); if set and parseable returns the parsed duration and
the original string, otherwise 5 minutes (300 s) and the literal "5m". -/
def get_snooze_duration_and_str (parseDur : String → Option Nat)
    (envVar : Option String) : Nat × String :=
  match envVar with
  | some s =>
    match parseDur s with
    | some dur => (dur, s)
    | none => (300, "5m")
  | none => (300, "5m")

/-- The store operations any client may perform on `active_timers`
(`register_active_timer_db` / `unregister_active_timer_db`). -/
inductive StoreOp
  | insert (pid : Int) (started durationSpec message : String)
  | remove (id : Nat)
deriving DecidableEq, Repr

/-- Apply one store operation. -/
def applyOp (r : Registry) : StoreOp → Registry
  | .insert pid started durationSpec message =>
    (register_active_timer_db r pid started durationSpec message).1
  | .remove id => unregister_active_timer_db r id

/-- Apply a sequence of store operations in order. -/
def applyOps (r : Registry) : List StoreOp → Registry
  | [] => r
  | op :: ops => applyOps (applyOp r op) ops

/-- The ids handed out by the inserts of an operation sequence, in order. -/
def assignedIds (r : Registry) : List StoreOp → List Nat
  | [] => []
  | op :: ops =>
    match op with
    | .insert _ _ _ _ => r.nextId :: assignedIds (applyOp r op) ops
    | .remove _ => assignedIds (applyOp r op) ops

/-- Store well-formedness: every row id is below the AUTOINCREMENT
counter and row ids are pairwise distinct. -/
def Registry.WF (r : Registry) : Prop :=
  (∀ row ∈ r.rows, row.id < r.nextId) ∧ (r.rows.map (fun row => row.id)).Nodup

/-- The external parsers the monitor uses on each row: `parseStart` is
`chrono::NaiveDateTime::parse_from_str(started, "%Y-%m-%d %H:%M:%S")`
(seconds since some epoch), `parseDur` is `humantime::parse_duration`
(whole seconds). -/
structure MonitorEnv where
  parseStart : String → Option Int
  parseDur : String → Option Nat

/-- The body of the monitor's per-row loop (`show_active_timer_db`, the
`for ... in active_timers` loop): parse the start timestamp and duration;
on success compute `time_left = started + duration - now`; if
`time_left ≤ 0` delete the row from the store and skip it (`continue`),
otherwise render it; if either parse fails, do nothing for this row.
`acc` is the pair (current store state, rows rendered so far). -/
def processRecord (env : MonitorEnv) (now : Int)
    (acc : Registry × List ActiveTimerRecord) (row : ActiveTimerRecord) :
    Registry × List ActiveTimerRecord :=
  match env.parseStart row.started with
  | some startTime =>
    match env.parseDur row.durationSpec with
    | some dur =>
      let timeLeft : Int := startTime + (dur : Int) - now
      if timeLeft ≤ 0 then (unregister_active_timer_db acc.1 row.id, acc.2)
      else (acc.1, acc.2 ++ [row])
    | none => acc
  | none => acc

/-- One render pass of the monitor: take the `listActive` snapshot and
run the per-row loop over it.  Returns the store after reaping and the
rows rendered this frame. -/
def monitorRender (env : MonitorEnv) (now : Int) (r : Registry) :
    Registry × List ActiveTimerRecord :=
  (listActive r).foldl (processRecord env now) (r, [])

/-- True when the monitor reaps the row this frame: both parses succeed
and the remaining time is ≤ 0. -/
def reaps (env : MonitorEnv) (now : Int) (row : ActiveTimerRecord) : Bool :=
  match env.parseStart row.started, env.parseDur row.durationSpec with
  | some startTime, some dur => decide (startTime + (dur : Int) - now ≤ 0)
  | _, _ => false

/-- True when the monitor renders the row this frame: both parses succeed
and the remaining time is > 0. -/
def renders (env : MonitorEnv) (now : Int) (row : ActiveTimerRecord) : Bool :=
  match env.parseStart row.started, env.parseDur row.durationSpec with
  | some startTime, some dur => decide (0 < startTime + (dur : Int) - now)
  | _, _ => false

/-- Rust's `char::to_ascii_lowercase`. -/
def toAsciiLowercase (c : Char) : Char :=
  if 'A' ≤ c ∧ c ≤ 'Z' then Char.ofNat (c.toNat + 32) else c

/-- Rust's `str::eq_ignore_ascii_case`. -/
def eqIgnoreAsciiCase (a b : String) : Bool :=
  a.data.map toAsciiLowercase == b.data.map toAsciiLowercase

/-- Digit-list accumulator for `parseI64`. -/
def parseDigits (cs : List Char) : Option Nat :=
  match cs with
  | [] => none
  | _ =>
    cs.foldl
      (fun acc c =>
        acc.bind (fun n =>
          if c.isDigit then some (n * 10 + (c.toNat - '0'.toNat)) else none))
      (some 0)

/-- Rust's `input.parse::<i64>()`: an optional sign followed by at least
one ASCII digit (the i64 range check is not modelled; registry ids in any
run are far below it). -/
def parseI64 (s : String) : Option Int :=
  match s.data with
  | [] => none
  | c :: cs =>
    if c = '-' then (parseDigits cs).map (fun n => -(n : Int))
    else if c = '+' then (parseDigits cs).map (fun n => (n : Int))
    else (parseDigits (c :: cs)).map (fun n => (n : Int))

/-- Outcome of one user command processed by the monitor. -/
inductive CmdOutcome
  | killedAll (pids : List Int)
  | killed (pid : Int)
  | notFound
  | invalid
deriving DecidableEq, Repr

/-- The monitor's command handler (`show_active_timer_db`, the
`if let Ok(input) = rx.try_recv()` block): "all" (ASCII case-insensitive)
kills the pid of every current row then clears the table; an integer
token looks up `SELECT pid FROM active_timers WHERE id = ?1`, and if a
row exists kills that pid and deletes the row, else reports not-found;
anything else is invalid input.  The returned `CmdOutcome` records which
pids were handed to `kill_process`. -/
def handleInput (r : Registry) (input : String) : Registry × CmdOutcome :=
  if eqIgnoreAsciiCase input "all" then
    let pids := r.rows.foldl (fun acc row => acc ++ [row.pid]) []
    ({ r with rows := [] }, .killedAll pids)
  else
    match parseI64 input with
    | some activeId =>
      match r.rows.find? (fun row => decide ((row.id : Int) = activeId)) with
      | some row =>
        ({ r with rows := r.rows.filter (fun rw => decide ((rw.id : Int) ≠ activeId)) },
         .killed row.pid)
      | none => (r, .notFound)
    | none => (r, .invalid)

/-- The three buttons of the expiry popup. -/
inductive TimerAction
  | snooze
  | restart
  | stop
deriving DecidableEq, Repr

/-- The in-process state of `run_timer` between waits: the store handle,
the history rows written so far, `active_timer_id`, the current wait
`duration` (seconds), the immutable `original_duration_str` and
`popup_message` arguments, and this process's pid. -/
structure TimerState where
  reg : Registry
  history : List HistoryEntry
  activeTimerId : Nat
  durationSecs : Nat
  originalDurationStr : String
  popupMessage : String
  pid : Int
deriving DecidableEq, Repr

/-- Result of handling one popup action in `run_timer`: either the loop
continues with a new state, or the record is gone and the process exits. -/
inductive StepResult
  | running (st : TimerState)
  | stopped (reg : Registry) (history : List HistoryEntry)
deriving DecidableEq, Repr

/-- Entry into `run_timer` via `main`'s foreground path: `main` logs the
creation into `timer_history`, then `run_timer` registers the active
record with the original duration string and keeps its id. -/
def timerStart (reg : Registry) (history : List HistoryEntry) (pid : Int)
    (nowStr : String) (durationSecs : Nat) (durationStr message : String)
    (fg : Bool) : TimerState :=
  let hist := log_timer_creation_db history nowStr durationStr message fg
  let ins := register_active_timer_db reg pid nowStr durationStr message
  { reg := ins.1, history := hist, activeTimerId := ins.2,
    durationSecs := durationSecs, originalDurationStr := durationStr,
    popupMessage := message, pid := pid }

/-- The `match action` block at the bottom of `run_timer`'s loop, entered
when the timer is Expired and the popup returned `action`.
Snooze: look up SNOOZE_TIME, delete the old record, insert a new one with
the snooze string and the message prefixed "(Snoozed) ", log it, and wait
for the snooze duration.  Restart: same with the original duration string
and prefix "(Restarted) " (the source re-parses `original_duration_str`
with `.unwrap()`, which cannot fail since the same string parsed at
creation; modelled by `getD 0`).  Stop: delete the record and exit. -/
def run_timer_step (parseDur : String → Option Nat) (snoozeEnv : Option String)
    (nowStr : String) (st : TimerState) : TimerAction → StepResult
  | .snooze =>
    let sd := get_snooze_duration_and_str parseDur snoozeEnv
    let newMessage := "(Snoozed) " ++ st.popupMessage
    let reg1 := unregister_active_timer_db st.reg st.activeTimerId
    let ins := register_active_timer_db reg1 st.pid nowStr sd.2 newMessage
    let hist := log_timer_creation_db st.history nowStr sd.2 newMessage false
    .running
      { st with
        reg := ins.1
        history := hist
        activeTimerId := ins.2
        durationSecs := sd.1 }
  | .restart =>
    let newMessage := "(Restarted) " ++ st.popupMessage
    let reg1 := unregister_active_timer_db st.reg st.activeTimerId
    let ins := register_active_timer_db reg1 st.pid nowStr
      st.originalDurationStr newMessage
    let hist := log_timer_creation_db st.history nowStr
      st.originalDurationStr newMessage false
    .running
      { st with
        reg := ins.1
        history := hist
        activeTimerId := ins.2
        durationSecs := (parseDur st.originalDurationStr).getD 0 }
  | .stop =>
    .stopped (unregister_active_timer_db st.reg st.activeTimerId) st.history

/-- Iterate `run_timer`'s loop over a list of (timestamp, popup action)
pairs; stops consuming the list once the timer stops. -/
def runTimerSteps (parseDur : String → Option Nat) (snoozeEnv : Option String)
    (st : TimerState) : List (String × TimerAction) → StepResult
  | [] => .running st
  | (nowStr, a) :: rest =>
    match run_timer_step parseDur snoozeEnv nowStr st a with
    | .running st1 => runTimerSteps parseDur snoozeEnv st1 rest
    | .stopped reg h => .stopped reg h

/-- Outcome of `main`'s timer-creation path. -/
inductive CreateOutcome
  | exitFailure (code : Nat)
  | started (st : TimerState)
deriving DecidableEq, Repr

/-- `main`'s timer-creation path: `parse_duration(&duration_str)` is
attempted first; on failure the process prints the error and calls
`process::exit(1)` before any record is created; on success the timer
starts (history logged, active record registered). -/
def mainStartTimer (parseDur : String → Option Nat) (reg : Registry)
    (history : List HistoryEntry) (pid : Int) (nowStr : String)
    (durationStr message : String) (fg : Bool) : CreateOutcome :=
  match parseDur durationStr with
  | none => .exitFailure 1
  | some d => .started (timerStart reg history pid nowStr d durationStr message fg)

/-- Invariant of a running timer process created with message `m0` and
duration string `d0`: the immutable arguments are intact, the active id
is below the store's counter, the store holds a row for the active id
whose message is `m0` with at most one of the two prefixes, and every
history row written so far also carries at most one prefix. -/
def timerInv (m0 d0 : String) (st : TimerState) : Prop :=
  st.popupMessage = m0 ∧ st.originalDurationStr = d0 ∧
  st.activeTimerId < st.reg.nextId ∧
  (∃ row, row ∈ st.reg.rows ∧ row.id = st.activeTimerId ∧
    (row.message = m0 ∨ row.message = "(Snoozed) " ++ m0 ∨
     row.message = "(Restarted) " ++ m0)) ∧
  (∀ e ∈ st.history, e.message = m0 ∨ e.message = "(Snoozed) " ++ m0 ∨
     e.message = "(Restarted) " ++ m0)

/-! ## Store lemmas -/

lemma init_db_WF : init_db.WF := by
  constructor <;> simp [init_db]

lemma register_WF (r : Registry) (pid : Int) (started durationSpec message : String)
    (h : r.WF) : ((register_active_timer_db r pid started durationSpec message).1).WF := by
  obtain ⟨hlt, hnd⟩ := h
  constructor
  · intro row hrow
    simp only [register_active_timer_db, List.mem_append, List.mem_singleton] at hrow
    rcases hrow with hrow | hrow
    · exact Nat.lt_succ_of_lt (hlt row hrow)
    · subst hrow; exact Nat.lt_succ_self _
  · simp only [register_active_timer_db, List.map_append, List.map_cons, List.map_nil]
    rw [List.nodup_append]
    refine ⟨hnd, List.nodup_singleton _, ?_⟩
    intro x hx hx'
    simp only [List.mem_singleton] at hx'
    subst hx'
    obtain ⟨row, hrow, hid⟩ := List.mem_map.mp hx
    exact absurd hid (Nat.ne_of_lt (hlt row hrow))

lemma unregister_WF (r : Registry) (activeId : Nat) (h : r.WF) :
    (unregister_active_timer_db r activeId).WF := by
  obtain ⟨hlt, hnd⟩ := h
  constructor
  · intro row hrow
    exact hlt row (List.mem_of_mem_filter hrow)
  · exact List.Nodup.sublist ((List.filter_sublist _).map _) hnd

lemma applyOp_WF (r : Registry) (op : StoreOp) (h : r.WF) : (applyOp r op).WF := by
  cases op with
  | insert pid started durationSpec message =>
    exact register_WF r pid started durationSpec message h
  | remove id => exact unregister_WF r id h

lemma applyOps_WF (ops : List StoreOp) (r : Registry) (h : r.WF) :
    (applyOps r ops).WF := by
  induction ops generalizing r with
  | nil => exact h
  | cons op ops ih => exact ih (applyOp r op) (applyOp_WF r op h)

lemma listActive_perm (r : Registry) : (listActive r).Perm r.rows :=
  List.perm_insertionSort idLe r.rows

lemma listActive_sorted (r : Registry) : (listActive r).Pairwise idLe :=
  List.sorted_insertionSort idLe r.rows

lemma applyOp_nextId_le (r : Registry) (op : StoreOp) :
    r.nextId ≤ (applyOp r op).nextId := by
  cases op with
  | insert pid started durationSpec message =>
    simp [applyOp, register_active_timer_db]
  | remove id => simp [applyOp, unregister_active_timer_db]

lemma assignedIds_ge (ops : List StoreOp) (r : Registry) (x : Nat)
    (hx : x ∈ assignedIds r ops) : r.nextId ≤ x := by
  induction ops generalizing r with
  | nil => simp [assignedIds] at hx
  | cons op ops ih =>
    cases op with
    | insert pid started durationSpec message =>
      simp only [assignedIds, List.mem_cons] at hx
      rcases hx with hx | hx
      · exact hx ▸ Nat.le_refl _
      · exact Nat.le_trans (applyOp_nextId_le r _) (ih _ hx)
    | remove id =>
      simp only [assignedIds] at hx
      exact Nat.le_trans (applyOp_nextId_le r _) (ih _ hx)

lemma assignedIds_pairwise (ops : List StoreOp) (r : Registry) :
    (assignedIds r ops).Pairwise (fun a b => a < b) := by
  induction ops generalizing r with
  | nil => simp [assignedIds]
  | cons op ops ih =>
    cases op with
    | insert pid started durationSpec message =>
      simp only [assignedIds, List.pairwise_cons]
      refine ⟨fun y hy => ?_, ih _⟩
      have h1 : (applyOp r (StoreOp.insert pid started durationSpec message)).nextId ≤ y :=
        assignedIds_ge ops _ y hy
      simp only [applyOp, register_active_timer_db] at h1
      exact Nat.lt_of_succ_le h1
    | remove id =>
      simp only [assignedIds]
      exact ih _

/-- C4: over every sequence of inserts and removes from a fresh store,
`listActive` has pairwise-distinct ids, is strictly ascending in id, and
the ids handed out by successive inserts are strictly increasing (never
reused). -/
theorem registry_ids_unique_increasing_sorted (ops : List StoreOp) :
    ((listActive (applyOps init_db ops)).map (fun row => row.id)).Nodup ∧
    (listActive (applyOps init_db ops)).Pairwise (fun a b => a.id < b.id) ∧
    (assignedIds init_db ops).Pairwise (fun a b => a < b) := by
  have hwf : (applyOps init_db ops).WF := applyOps_WF ops init_db init_db_WF
  have hperm : ((listActive (applyOps init_db ops)).map (fun row => row.id)).Perm
      ((applyOps init_db ops).rows.map (fun row => row.id)) :=
    (listActive_perm (applyOps init_db ops)).map _
  have hnd : ((listActive (applyOps init_db ops)).map (fun row => row.id)).Nodup :=
    hperm.nodup_iff.mpr hwf.2
  refine ⟨hnd, ?_, assignedIds_pairwise ops init_db⟩
  have h1 : (listActive (applyOps init_db ops)).Pairwise idLe :=
    listActive_sorted (applyOps init_db ops)
  have h2 : (listActive (applyOps init_db ops)).Pairwise
      (fun a b => a.id ≠ b.id) := List.pairwise_map.mp hnd
  exact (h1.and h2).imp (fun h => Nat.lt_of_le_of_ne h.1 h.2)

/-- C9: removing an absent id is a no-op producing no state change, and
repeating a removal any number of times has the effect of doing it once. -/
theorem remove_absent_noop_idempotent (r : Registry) (activeId : Nat) :
    (activeId ∉ r.rows.map (fun row => row.id) →
      unregister_active_timer_db r activeId = r) ∧
    (∀ n : Nat,
      (fun s => unregister_active_timer_db s activeId)^[n + 1] r =
        unregister_active_timer_db r activeId) := by
  constructor
  · intro habs
    have hfil : r.rows.filter (fun row => decide (row.id ≠ activeId)) = r.rows := by
      apply List.filter_eq_self.mpr
      intro row hrow
      simp only [decide_eq_true_eq]
      intro heq
      exact habs (List.mem_map.mpr ⟨row, hrow, heq⟩)
    unfold unregister_active_timer_db
    rw [hfil]
  · have hidem : ∀ s : Registry,
        unregister_active_timer_db (unregister_active_timer_db s activeId) activeId =
          unregister_active_timer_db s activeId := by
      intro s
      simp [unregister_active_timer_db, List.filter_filter]
    intro n
    induction n with
    | zero => simp
    | succ n ih =>
      rw [Function.iterate_succ_apply', ih, hidem]

/-! ## Monitor render lemmas -/

lemma processRecord_eq (env : MonitorEnv) (now : Int)
    (acc : Registry × List ActiveTimerRecord) (row : ActiveTimerRecord) :
    processRecord env now acc row =
      ((if reaps env now row then unregister_active_timer_db acc.1 row.id else acc.1),
       (if renders env now row then acc.2 ++ [row] else acc.2)) := by
  unfold processRecord reaps renders
  rcases h1 : env.parseStart row.started with _ | startTime
  · simp
  · rcases h2 : env.parseDur row.durationSpec with _ | dur
    · simp
    · by_cases hle : startTime + (dur : Int) - now ≤ 0
      · have hnlt : ¬ (0 < startTime + (dur : Int) - now) := by omega
        simp [hle, hnlt]
      · have hlt : 0 < startTime + (dur : Int) - now := by omega
        simp [hle, hlt]

lemma monitor_fold_snd (env : MonitorEnv) (now : Int) :
    ∀ (l : List ActiveTimerRecord) (r0 : Registry) (acc : List ActiveTimerRecord),
      (l.foldl (processRecord env now) (r0, acc)).2 =
        acc ++ l.filter (renders env now) := by
  intro l
  induction l with
  | nil => intro r0 acc; simp
  | cons a l ih =>
    intro r0 acc
    rw [List.foldl_cons, processRecord_eq]
    by_cases hr : renders env now a
    · simp only [hr, if_true, List.filter_cons, hr]
      rw [ih]
      simp
    · simp only [hr, if_false, List.filter_cons]
      rw [ih]
      simp [hr]

lemma mem_unregister (r : Registry) (activeId : Nat) (row : ActiveTimerRecord) :
    row ∈ (unregister_active_timer_db r activeId).rows ↔
      row ∈ r.rows ∧ row.id ≠ activeId := by
  simp [unregister_active_timer_db, List.mem_filter]

lemma monitor_fold_fst_mem (env : MonitorEnv) (now : Int) :
    ∀ (l : List ActiveTimerRecord) (r0 : Registry) (acc : List ActiveTimerRecord)
      (row : ActiveTimerRecord),
      row ∈ ((l.foldl (processRecord env now) (r0, acc)).1).rows ↔
        (row ∈ r0.rows ∧ ∀ x ∈ l, reaps env now x = true → x.id ≠ row.id) := by
  intro l
  induction l with
  | nil => intro r0 acc row; simp
  | cons a l ih =>
    intro r0 acc row
    rw [List.foldl_cons, processRecord_eq]
    by_cases hr : reaps env now a
    · simp only [hr, if_true]
      rw [ih, mem_unregister]
      constructor
      · rintro ⟨⟨hmem, hne⟩, hall⟩
        refine ⟨hmem, ?_⟩
        intro x hx hrx
        rcases List.mem_cons.mp hx with hx | hx
        · subst hx; exact fun h => hne h.symm
        · exact hall x hx hrx
      · rintro ⟨hmem, hall⟩
        refine ⟨⟨hmem, fun h => hall a (List.mem_cons_self a l) hr h.symm⟩, ?_⟩
        intro x hx hrx
        exact hall x (List.mem_cons_of_mem a hx) hrx
    · simp only [hr, if_false]
      rw [ih]
      constructor
      · rintro ⟨hmem, hall⟩
        refine ⟨hmem, ?_⟩
        intro x hx hrx
        rcases List.mem_cons.mp hx with hx | hx
        · subst hx; exact absurd hrx hr
        · exact hall x hx hrx
      · rintro ⟨hmem, hall⟩
        refine ⟨hmem, ?_⟩
        intro x hx hrx
        exact hall x (List.mem_cons_of_mem a hx) hrx

lemma mem_listActive (r : Registry) (row : ActiveTimerRecord) :
    row ∈ listActive r ↔ row ∈ r.rows :=
  (listActive_perm r).mem_iff

lemma monitorRender_snd (env : MonitorEnv) (now : Int) (r : Registry) :
    (monitorRender env now r).2 = (listActive r).filter (renders env now) := by
  unfold monitorRender
  rw [monitor_fold_snd]
  simp

lemma monitorRender_fst_mem (env : MonitorEnv) (now : Int) (r : Registry)
    (row : ActiveTimerRecord) :
    row ∈ (monitorRender env now r).1.rows ↔
      (row ∈ r.rows ∧ ∀ x ∈ listActive r, reaps env now x = true → x.id ≠ row.id) := by
  unfold monitorRender
  rw [monitor_fold_fst_mem]

lemma listActive_id_nodup (r : Registry)
    (hnd : (r.rows.map (fun row => row.id)).Nodup) :
    ((listActive r).map (fun row => row.id)).Nodup :=
  ((listActive_perm r).map _).nodup_iff.mpr hnd

/-- C3: in a monitor pass over a snapshot with distinct ids, a record
whose computed remaining time `startedAt + parse(durationSpec) - now` is
≤ 0 is deleted from the store and excluded from the frame's render, and a
record whose remaining time is > 0 is rendered and kept (present in the
next `listActive`). -/
theorem monitor_reaps_stale_keeps_live (env : MonitorEnv) (now : Int)
    (r : Registry) (row : ActiveTimerRecord) (startTime : Int) (dur : Nat)
    (hnd : (r.rows.map (fun rw => rw.id)).Nodup)
    (hmem : row ∈ listActive r)
    (hs : env.parseStart row.started = some startTime)
    (hd : env.parseDur row.durationSpec = some dur) :
    (startTime + (dur : Int) - now ≤ 0 →
      row ∉ (monitorRender env now r).2 ∧
      row ∉ listActive (monitorRender env now r).1) ∧
    (0 < startTime + (dur : Int) - now →
      row ∈ (monitorRender env now r).2 ∧
      row ∈ listActive (monitorRender env now r).1) := by
  have hmemrows : row ∈ r.rows := (mem_listActive r row).mp hmem
  have hsnap : ((listActive r).map (fun rw => rw.id)).Nodup :=
    listActive_id_nodup r hnd
  constructor
  · intro hle
    have hreap : reaps env now row = true := by
      simp [reaps, hs, hd]
      omega
    have hrend : renders env now row = false := by
      simp [renders, hs, hd]
      omega
    constructor
    · rw [monitorRender_snd]
      intro hcontra
      have := List.of_mem_filter hcontra
      rw [hrend] at this
      cases this
    · rw [mem_listActive, monitorRender_fst_mem]
      rintro ⟨_, hall⟩
      exact hall row hmem hreap rfl
  · intro hlt
    have hrend : renders env now row = true := by
      simp [renders, hs, hd]
      omega
    constructor
    · rw [monitorRender_snd]
      exact List.mem_filter.mpr ⟨hmem, hrend⟩
    · rw [mem_listActive, monitorRender_fst_mem]
      refine ⟨hmemrows, ?_⟩
      intro x hx hrx hid
      have hxeq : x = row := List.inj_on_of_nodup_map hsnap hx hmem hid
      subst hxeq
      simp [reaps, hs, hd] at hrx
      omega

/-- C3 witness: a record started at time 0 with duration "10s" observed
at time 11 is reaped: absent from the render and from the next
`listActive`. -/
theorem monitor_reaps_stale_keeps_live_witness :
    ({ id := 1, pid := 99, started := "T", durationSpec := "10s",
       message := "m" } : ActiveTimerRecord) ∉
      (monitorRender
        { parseStart := fun s => if s = "T" then some 0 else none,
          parseDur := fun s => if s = "10s" then some 10 else none }
        11
        { nextId := 2,
          rows := [{ id := 1, pid := 99, started := "T",
                     durationSpec := "10s", message := "m" }] }).2 ∧
    ({ id := 1, pid := 99, started := "T", durationSpec := "10s",
       message := "m" } : ActiveTimerRecord) ∉
      listActive (monitorRender
        { parseStart := fun s => if s = "T" then some 0 else none,
          parseDur := fun s => if s = "10s" then some 10 else none }
        11
        { nextId := 2,
          rows := [{ id := 1, pid := 99, started := "T",
                     durationSpec := "10s", message := "m" }] }).1 :=
  (monitor_reaps_stale_keeps_live
    { parseStart := fun s => if s = "T" then some 0 else none,
      parseDur := fun s => if s = "10s" then some 10 else none }
    11
    { nextId := 2,
      rows := [{ id := 1, pid := 99, started := "T",
                 durationSpec := "10s", message := "m" }] }
    { id := 1, pid := 99, started := "T", durationSpec := "10s", message := "m" }
    0 10 (by decide) (by decide) (by decide) (by decide)).1 (by decide)

/-- C8: a registry row whose duration string does not parse at monitor
redisplay time is skipped for the frame — neither rendered nor deleted
(the pass is total, so the view does not crash) — while a duration string
that does not parse at timer-creation time makes `main` exit with code 1
before any record is created. -/
theorem parse_failure_nonfatal_monitor_fatal_creation :
    (∀ (env : MonitorEnv) (now : Int) (r : Registry) (row : ActiveTimerRecord),
      (r.rows.map (fun rw => rw.id)).Nodup → row ∈ r.rows →
      env.parseDur row.durationSpec = none →
      row ∉ (monitorRender env now r).2 ∧
      row ∈ listActive (monitorRender env now r).1) ∧
    (∀ (parseDur : String → Option Nat) (reg : Registry)
      (history : List HistoryEntry) (pid : Int)
      (nowStr durationStr message : String) (fg : Bool),
      parseDur durationStr = none →
      mainStartTimer parseDur reg history pid nowStr durationStr message fg =
        .exitFailure 1) := by
  constructor
  · intro env now r row hnd hmem hd
    have hmemsnap : row ∈ listActive r := (mem_listActive r row).mpr hmem
    have hsnap : ((listActive r).map (fun rw => rw.id)).Nodup :=
      listActive_id_nodup r hnd
    have hrend : renders env now row = false := by
      rcases h1 : env.parseStart row.started with _ | startTime <;>
        simp [renders, h1, hd]
    have hreap : reaps env now row = false := by
      rcases h1 : env.parseStart row.started with _ | startTime <;>
        simp [reaps, h1, hd]
    constructor
    · rw [monitorRender_snd]
      intro hcontra
      have := List.of_mem_filter hcontra
      rw [hrend] at this
      cases this
    · rw [mem_listActive, monitorRender_fst_mem]
      refine ⟨hmem, ?_⟩
      intro x hx hrx hid
      have hxeq : x = row := List.inj_on_of_nodup_map hsnap hx hmemsnap hid
      subst hxeq
      rw [hreap] at hrx
      cases hrx
  · intro parseDur reg history pid nowStr durationStr message fg hbad
    simp [mainStartTimer, hbad]

/-- C8 witness: a row with unparseable duration "oops" survives a monitor
pass unrendered, and creating a timer with unparseable duration "oops"
exits with code 1. -/
theorem parse_failure_nonfatal_monitor_fatal_creation_witness :
    (({ id := 1, pid := 99, started := "T", durationSpec := "oops",
        message := "m" } : ActiveTimerRecord) ∉
      (monitorRender
        { parseStart := fun _ => some 0, parseDur := fun _ => none } 11
        { nextId := 2,
          rows := [{ id := 1, pid := 99, started := "T",
                     durationSpec := "oops", message := "m" }] }).2 ∧
     ({ id := 1, pid := 99, started := "T", durationSpec := "oops",
        message := "m" } : ActiveTimerRecord) ∈
      listActive (monitorRender
        { parseStart := fun _ => some 0, parseDur := fun _ => none } 11
        { nextId := 2,
          rows := [{ id := 1, pid := 99, started := "T",
                     durationSpec := "oops", message := "m" }] }).1) ∧
    mainStartTimer (fun _ => none) init_db [] 42 "T" "oops" "m" true =
      .exitFailure 1 :=
  ⟨parse_failure_nonfatal_monitor_fatal_creation.1
      { parseStart := fun _ => some 0, parseDur := fun _ => none } 11
      { nextId := 2,
        rows := [{ id := 1, pid := 99, started := "T",
                   durationSpec := "oops", message := "m" }] }
      { id := 1, pid := 99, started := "T", durationSpec := "oops", message := "m" }
      (by decide) (by decide) (by decide),
   parse_failure_nonfatal_monitor_fatal_creation.2
      (fun _ => none) init_db [] 42 "T" "oops" "m" true (by decide)⟩

/-! ## Monitor command handling -/

lemma foldl_pids (l : List ActiveTimerRecord) :
    ∀ acc : List Int, l.foldl (fun acc row => acc ++ [row.pid]) acc =
      acc ++ l.map (fun row => row.pid) := by
  induction l with
  | nil => intro acc; simp
  | cons a l ih => intro acc; simp [ih]

/-- C5: for an id token entered at the monitor, if a record with that id
is present, `kill_process` is invoked on exactly that record's pid and
the record is removed; if absent, the monitor reports not-found, kills
nothing, and the registry is unchanged. -/
theorem kill_by_id_found_or_reports_not_found (r : Registry) (s : String)
    (n : Int)
    (hall : eqIgnoreAsciiCase s "all" = false)
    (hn : parseI64 s = some n)
    (hnd : (r.rows.map (fun row => row.id)).Nodup) :
    (∀ row ∈ r.rows, (row.id : Int) = n →
      (handleInput r s).2 = .killed row.pid ∧
      ∀ rw, rw ∈ (handleInput r s).1.rows ↔ (rw ∈ r.rows ∧ (rw.id : Int) ≠ n)) ∧
    ((∀ row ∈ r.rows, (row.id : Int) ≠ n) →
      handleInput r s = (r, .notFound)) := by
  have hh : handleInput r s =
      (match r.rows.find? (fun row => decide ((row.id : Int) = n)) with
       | some row =>
         ({ r with rows := r.rows.filter (fun rw => decide ((rw.id : Int) ≠ n)) },
          CmdOutcome.killed row.pid)
       | none => (r, CmdOutcome.notFound)) := by
    unfold handleInput
    rw [hall, hn]
    simp
  constructor
  · intro row hrow hid
    rcases hfind : r.rows.find? (fun rw => decide ((rw.id : Int) = n)) with _ | row₀
    · exfalso
      have := List.find?_eq_none.mp hfind row hrow
      simp [hid] at this
    · have hmem₀ : row₀ ∈ r.rows := List.mem_of_find?_eq_some hfind
      have hid₀ : (row₀.id : Int) = n := by
        have := List.find?_some hfind
        simpa using this
      have : row₀ = row := by
        apply List.inj_on_of_nodup_map hnd hmem₀ hrow
        have : (row₀.id : Int) = (row.id : Int) := by rw [hid₀, hid]
        exact_mod_cast this
      subst this
      rw [hh, hfind]
      refine ⟨rfl, ?_⟩
      intro rw
      simp [List.mem_filter]
  · intro habs
    have hfind : r.rows.find? (fun rw => decide ((rw.id : Int) = n)) = none := by
      apply List.find?_eq_none.mpr
      intro x hx
      simp [habs x hx]
    rw [hh, hfind]

/-- C5 witness: command "7" with no record of id 7 present reports
not-found and leaves the registry unchanged. -/
theorem kill_by_id_found_or_reports_not_found_witness :
    handleInput
      { nextId := 4,
        rows := [{ id := 3, pid := 55, started := "T", durationSpec := "1s",
                   message := "m" }] } "7" =
      ({ nextId := 4,
         rows := [{ id := 3, pid := 55, started := "T", durationSpec := "1s",
                    message := "m" }] }, CmdOutcome.notFound) :=
  (kill_by_id_found_or_reports_not_found
    { nextId := 4,
      rows := [{ id := 3, pid := 55, started := "T", durationSpec := "1s",
                 message := "m" }] } "7" 7
    (by decide) (by decide) (by decide)).2 (by decide)

/-- C6: the "all" command hands the pid of every record currently in the
registry to `kill_process` exactly once (the kill list is a permutation
of the pids of `listActive`), then clears the table, so the next
`listActive` is empty. -/
theorem kill_all_terminates_every_record_and_clears (r : Registry) (s : String)
    (hall : eqIgnoreAsciiCase s "all" = true) :
    ∃ pids, (handleInput r s).2 = .killedAll pids ∧
      pids.Perm ((listActive r).map (fun row => row.pid)) ∧
      listActive (handleInput r s).1 = [] := by
  refine ⟨r.rows.map (fun row => row.pid), ?_, ?_, ?_⟩
  · unfold handleInput
    rw [hall]
    simp [foldl_pids]
  · exact ((listActive_perm r).map _).symm
  · unfold handleInput
    rw [hall]
    simp [listActive, List.insertionSort]

/-- C6 witness: "all" with two records present kills both pids and empties
the registry. -/
theorem kill_all_terminates_every_record_and_clears_witness :
    ∃ pids,
      (handleInput
        { nextId := 3,
          rows := [{ id := 1, pid := 11, started := "T", durationSpec := "1s",
                     message := "a" },
                   { id := 2, pid := 22, started := "T", durationSpec := "2s",
                     message := "b" }] } "all").2 = .killedAll pids ∧
      pids.Perm ((listActive
        { nextId := 3,
          rows := [{ id := 1, pid := 11, started := "T", durationSpec := "1s",
                     message := "a" },
                   { id := 2, pid := 22, started := "T", durationSpec := "2s",
                     message := "b" }] }).map (fun row => row.pid)) ∧
      listActive (handleInput
        { nextId := 3,
          rows := [{ id := 1, pid := 11, started := "T", durationSpec := "1s",
                     message := "a" },
                   { id := 2, pid := 22, started := "T", durationSpec := "2s",
                     message := "b" }] } "all").1 = [] :=
  kill_all_terminates_every_record_and_clears
    { nextId := 3,
      rows := [{ id := 1, pid := 11, started := "T", durationSpec := "1s",
                 message := "a" },
               { id := 2, pid := 22, started := "T", durationSpec := "2s",
                 message := "b" }] } "all" (by decide)

lemma timerInv_start (reg : Registry) (pid : Int) (nowStr : String) (ds : Nat)
    (d0 m0 : String) (fg : Bool) :
    timerInv m0 d0 (timerStart reg [] pid nowStr ds d0 m0 fg) := by
  refine ⟨rfl, rfl, ?_, ?_, ?_⟩
  · simp [timerStart, register_active_timer_db]
  · refine ⟨⟨reg.nextId, pid, nowStr, d0, m0⟩, ?_, rfl, Or.inl rfl⟩
    simp [timerStart, register_active_timer_db]
  · intro e he
    simp [timerStart, log_timer_creation_db] at he
    subst he
    exact Or.inl rfl

lemma timerInv_step (parseDur : String → Option Nat) (snoozeEnv : Option String)
    (nowStr : String) (m0 d0 : String) (st st' : TimerState) (a : TimerAction)
    (hinv : timerInv m0 d0 st)
    (hstep : run_timer_step parseDur snoozeEnv nowStr st a = .running st') :
    timerInv m0 d0 st' := by
  obtain ⟨hm, hd0, hlt, hrow, hhist⟩ := hinv
  cases a with
  | snooze =>
    simp only [run_timer_step, StepResult.running.injEq] at hstep
    subst hstep
    refine ⟨hm, hd0, ?_, ?_, ?_⟩
    · simp [register_active_timer_db]
    · refine ⟨⟨(unregister_active_timer_db st.reg st.activeTimerId).nextId,
        st.pid, nowStr, (get_snooze_duration_and_str parseDur snoozeEnv).2,
        "(Snoozed) " ++ st.popupMessage⟩, ?_, ?_, ?_⟩
      · simp [register_active_timer_db]
      · simp [register_active_timer_db]
      · exact Or.inr (Or.inl (by rw [hm]))
    · intro e he
      simp only [log_timer_creation_db, List.mem_append, List.mem_singleton] at he
      rcases he with he | he
      · exact hhist e he
      · subst he
        exact Or.inr (Or.inl (by simp [hm]))
  | restart =>
    simp only [run_timer_step, StepResult.running.injEq] at hstep
    subst hstep
    refine ⟨hm, hd0, ?_, ?_, ?_⟩
    · simp [register_active_timer_db]
    · refine ⟨⟨(unregister_active_timer_db st.reg st.activeTimerId).nextId,
        st.pid, nowStr, st.originalDurationStr,
        "(Restarted) " ++ st.popupMessage⟩, ?_, ?_, ?_⟩
      · simp [register_active_timer_db]
      · simp [register_active_timer_db]
      · exact Or.inr (Or.inr (by rw [hm]))
    · intro e he
      simp only [log_timer_creation_db, List.mem_append, List.mem_singleton] at he
      rcases he with he | he
      · exact hhist e he
      · subst he
        exact Or.inr (Or.inr (by simp [hm]))
  | stop =>
    simp [run_timer_step] at hstep

lemma timerInv_steps (parseDur : String → Option Nat) (snoozeEnv : Option String)
    (m0 d0 : String) :
    ∀ (steps : List (String × TimerAction)) (st st' : TimerState),
      timerInv m0 d0 st →
      runTimerSteps parseDur snoozeEnv st steps = .running st' →
      timerInv m0 d0 st' := by
  intro steps
  induction steps with
  | nil =>
    intro st st' hinv hrun
    simp only [runTimerSteps, StepResult.running.injEq] at hrun
    subst hrun
    exact hinv
  | cons p rest ih =>
    intro st st' hinv hrun
    obtain ⟨nowStr, a⟩ := p
    simp only [runTimerSteps] at hrun
    rcases hstep : run_timer_step parseDur snoozeEnv nowStr st a with st1 | ⟨reg, h⟩
    · simp only [hstep] at hrun
      exact ih st1 st' (timerInv_step parseDur snoozeEnv nowStr m0 d0 st st1 a hinv hstep) hrun
    · simp [hstep] at hrun

/-- C1: at any reachable Expired state of a timer created with message
`m0`, choosing Snooze removes the old active record and inserts a new one
whose message is the creation message prefixed "(Snoozed) " and whose
duration string is the configured snooze span — the SNOOZE_TIME value
when set and parseable, the literal "5m" when unset or unparseable — and
appends a history entry for the re-entry into Running. -/
theorem snooze_replaces_record (parseDur : String → Option Nat)
    (snoozeEnv : Option String) (reg : Registry) (pid : Int)
    (nowStr0 : String) (ds : Nat) (d0 m0 : String) (fg : Bool)
    (steps : List (String × TimerAction)) (nowStr : String)
    (st st' : TimerState)
    (hrun : runTimerSteps parseDur snoozeEnv
      (timerStart reg [] pid nowStr0 ds d0 m0 fg) steps = .running st)
    (hstep : run_timer_step parseDur snoozeEnv nowStr st .snooze = .running st') :
    st.activeTimerId ∉ st'.reg.rows.map (fun row => row.id) ∧
    (∃ row, row ∈ st'.reg.rows ∧ row.id = st'.activeTimerId ∧
      row.message = "(Snoozed) " ++ m0 ∧
      row.durationSpec = (get_snooze_duration_and_str parseDur snoozeEnv).2) ∧
    (snoozeEnv = none → (get_snooze_duration_and_str parseDur snoozeEnv).2 = "5m") ∧
    (∀ s, snoozeEnv = some s → parseDur s = none →
      (get_snooze_duration_and_str parseDur snoozeEnv).2 = "5m") ∧
    (∀ s, snoozeEnv = some s → parseDur s ≠ none →
      (get_snooze_duration_and_str parseDur snoozeEnv).2 = s) ∧
    st'.history = st.history ++
      [{ timestamp := nowStr,
         duration := (get_snooze_duration_and_str parseDur snoozeEnv).2,
         message := "(Snoozed) " ++ m0, fg := false }] := by
  obtain ⟨hm, hd0, hlt, -, -⟩ :=
    timerInv_steps parseDur snoozeEnv m0 d0 steps _ st
      (timerInv_start reg pid nowStr0 ds d0 m0 fg) hrun
  simp only [run_timer_step, StepResult.running.injEq] at hstep
  subst hstep
  refine ⟨?_, ?_, ?_, ?_, ?_, ?_⟩
  · intro hcontra
    simp only [register_active_timer_db, unregister_active_timer_db,
      List.map_append, List.mem_append, List.map_cons, List.map_nil,
      List.mem_singleton, List.mem_map, List.mem_filter] at hcontra
    rcases hcontra with ⟨row, ⟨hmem, hne⟩, hid⟩ | heq
    · rw [hid] at hne
      simp at hne
    · exact absurd heq (Nat.ne_of_lt hlt)
  · refine ⟨⟨(unregister_active_timer_db st.reg st.activeTimerId).nextId,
      st.pid, nowStr, (get_snooze_duration_and_str parseDur snoozeEnv).2,
      "(Snoozed) " ++ st.popupMessage⟩, ?_, ?_, ?_, rfl⟩
    · simp [register_active_timer_db]
    · simp [register_active_timer_db]
    · rw [hm]
  · intro h
    subst h
    rfl
  · intro s h hbad
    subst h
    simp [get_snooze_duration_and_str, hbad]
  · intro s h hgood
    subst h
    rcases hps : parseDur s with _ | dd
    · exact absurd hps hgood
    · simp [get_snooze_duration_and_str, hps]
  · simp [log_timer_creation_db, hm]

/-- C1 witness: with SNOOZE_TIME unset, snoozing a freshly expired timer
(created with duration "2s", message "work") replaces record 1 with
record 2 carrying durationSpec "5m" and message "(Snoozed) work", and
appends the matching history entry. -/
theorem snooze_replaces_record_witness :
    (1 : Nat) ∉ ([⟨2, 42, "t1", "5m", "(Snoozed) work"⟩] :
        List ActiveTimerRecord).map (fun row => row.id) ∧
    (∃ row, row ∈ ([⟨2, 42, "t1", "5m", "(Snoozed) work"⟩] :
        List ActiveTimerRecord) ∧ row.id = 2 ∧
      row.message = "(Snoozed) work" ∧ row.durationSpec = "5m") ∧
    ((none : Option String) = none → ("5m" : String) = "5m") ∧
    (∀ s : String, (none : Option String) = some s →
      (fun _ : String => (none : Option Nat)) s = none → ("5m" : String) = "5m") ∧
    (∀ s : String, (none : Option String) = some s →
      (fun _ : String => (none : Option Nat)) s ≠ none → ("5m" : String) = s) ∧
    ([⟨"t0", "2s", "work", true⟩, ⟨"t1", "5m", "(Snoozed) work", false⟩] :
        List HistoryEntry) =
      [⟨"t0", "2s", "work", true⟩] ++ [⟨"t1", "5m", "(Snoozed) work", false⟩] :=
  snooze_replaces_record (fun _ => none) none init_db 42 "t0" 2 "2s" "work"
    true [] "t1"
    (timerStart init_db [] 42 "t0" 2 "2s" "work" true)
    ⟨⟨3, [⟨2, 42, "t1", "5m", "(Snoozed) work"⟩]⟩,
     [⟨"t0", "2s", "work", true⟩, ⟨"t1", "5m", "(Snoozed) work", false⟩],
     2, 300, "2s", "work", 42⟩
    (by decide) (by decide)

/-- C2: at any reachable Expired state — after arbitrarily many snoozes
and restarts — choosing Restart removes the old active record and inserts
a new one whose duration string is the duration given at the timer's
original creation (and whose message is the creation message prefixed
"(Restarted) "). -/
theorem restart_uses_original_duration (parseDur : String → Option Nat)
    (snoozeEnv : Option String) (reg : Registry) (pid : Int)
    (nowStr0 : String) (ds : Nat) (d0 m0 : String) (fg : Bool)
    (steps : List (String × TimerAction)) (nowStr : String)
    (st st' : TimerState)
    (hrun : runTimerSteps parseDur snoozeEnv
      (timerStart reg [] pid nowStr0 ds d0 m0 fg) steps = .running st)
    (hstep : run_timer_step parseDur snoozeEnv nowStr st .restart = .running st') :
    st.activeTimerId ∉ st'.reg.rows.map (fun row => row.id) ∧
    (∃ row, row ∈ st'.reg.rows ∧ row.id = st'.activeTimerId ∧
      row.durationSpec = d0 ∧ row.message = "(Restarted) " ++ m0) := by
  obtain ⟨hm, hd0, hlt, -, -⟩ :=
    timerInv_steps parseDur snoozeEnv m0 d0 steps _ st
      (timerInv_start reg pid nowStr0 ds d0 m0 fg) hrun
  simp only [run_timer_step, StepResult.running.injEq] at hstep
  subst hstep
  constructor
  · intro hcontra
    simp only [register_active_timer_db, unregister_active_timer_db,
      List.map_append, List.mem_append, List.map_cons, List.map_nil,
      List.mem_singleton, List.mem_map, List.mem_filter] at hcontra
    rcases hcontra with ⟨row, ⟨hmem, hne⟩, hid⟩ | heq
    · rw [hid] at hne
      simp at hne
    · exact absurd heq (Nat.ne_of_lt hlt)
  · refine ⟨⟨(unregister_active_timer_db st.reg st.activeTimerId).nextId,
      st.pid, nowStr, st.originalDurationStr,
      "(Restarted) " ++ st.popupMessage⟩, ?_, ?_, ?_, ?_⟩
    · simp [register_active_timer_db]
    · simp [register_active_timer_db]
    · rw [hd0]
    · rw [hm]

/-- C2 witness: a timer created with duration "2s" is snoozed once (to
"5m") and then restarted: the re-inserted record carries the original
"2s", not the snoozed duration. -/
theorem restart_uses_original_duration_witness :
    (2 : Nat) ∉ ([⟨3, 42, "t2", "2s", "(Restarted) work"⟩] :
        List ActiveTimerRecord).map (fun row => row.id) ∧
    (∃ row, row ∈ ([⟨3, 42, "t2", "2s", "(Restarted) work"⟩] :
        List ActiveTimerRecord) ∧ row.id = 3 ∧
      row.durationSpec = "2s" ∧ row.message = "(Restarted) work") :=
  restart_uses_original_duration
    (fun s => if s = "2s" then some 2 else none) none init_db 42 "t0" 2 "2s"
    "work" true [("t1", TimerAction.snooze)] "t2"
    ⟨⟨3, [⟨2, 42, "t1", "5m", "(Snoozed) work"⟩]⟩,
     [⟨"t0", "2s", "work", true⟩, ⟨"t1", "5m", "(Snoozed) work", false⟩],
     2, 300, "2s", "work", 42⟩
    ⟨⟨4, [⟨3, 42, "t2", "2s", "(Restarted) work"⟩]⟩,
     [⟨"t0", "2s", "work", true⟩, ⟨"t1", "5m", "(Snoozed) work", false⟩,
      ⟨"t2", "2s", "(Restarted) work", false⟩],
     3, 2, "2s", "work", 42⟩
    (by decide) (by decide)

/-- C10: after any sequence of snooze/restart transitions of a timer
created with message `m0`, the active record's message — and the message
of every history entry the timer has appended — is either the original
creation message or that message under exactly one of the prefixes
"(Snoozed) " / "(Restarted) "; prefixes never accumulate. -/
theorem message_carries_single_prefix (parseDur : String → Option Nat)
    (snoozeEnv : Option String) (reg : Registry) (pid : Int)
    (nowStr0 : String) (ds : Nat) (d0 m0 : String) (fg : Bool)
    (steps : List (String × TimerAction)) (st : TimerState)
    (hrun : runTimerSteps parseDur snoozeEnv
      (timerStart reg [] pid nowStr0 ds d0 m0 fg) steps = .running st) :
    (∃ row, row ∈ st.reg.rows ∧ row.id = st.activeTimerId ∧
      (row.message = m0 ∨ row.message = "(Snoozed) " ++ m0 ∨
       row.message = "(Restarted) " ++ m0)) ∧
    (∀ e ∈ st.history, e.message = m0 ∨ e.message = "(Snoozed) " ++ m0 ∨
      e.message = "(Restarted) " ++ m0) := by
  obtain ⟨-, -, -, hrow, hhist⟩ :=
    timerInv_steps parseDur snoozeEnv m0 d0 steps _ st
      (timerInv_start reg pid nowStr0 ds d0 m0 fg) hrun
  exact ⟨hrow, hhist⟩

/-- C10 witness: after two snoozes the active record's message is
"(Snoozed) work" — one prefix on the creation message, not two. -/
theorem message_carries_single_prefix_witness :
    (∃ row, row ∈ ([⟨3, 42, "t2", "5m", "(Snoozed) work"⟩] :
        List ActiveTimerRecord) ∧ row.id = 3 ∧
      (row.message = "work" ∨ row.message = "(Snoozed) work" ∨
       row.message = "(Restarted) work")) ∧
    (∀ e ∈ ([⟨"t0", "2s", "work", true⟩, ⟨"t1", "5m", "(Snoozed) work", false⟩,
        ⟨"t2", "5m", "(Snoozed) work", false⟩] : List HistoryEntry),
      e.message = "work" ∨ e.message = "(Snoozed) work" ∨
      e.message = "(Restarted) work") :=
  message_carries_single_prefix (fun _ => none) none init_db 42 "t0" 2 "2s"
    "work" true [("t1", TimerAction.snooze), ("t2", TimerAction.snooze)]
    ⟨⟨4, [⟨3, 42, "t2", "5m", "(Snoozed) work"⟩]⟩,
     [⟨"t0", "2s", "work", true⟩, ⟨"t1", "5m", "(Snoozed) work", false⟩,
      ⟨"t2", "5m", "(Snoozed) work", false⟩],
     3, 300, "2s", "work", 42⟩
    (by decide)

/-- C9 witness: removing absent id 7 from a fresh store changes nothing,
and removing it three times equals removing it once. -/
theorem remove_absent_noop_idempotent_witness :
    unregister_active_timer_db init_db 7 = init_db ∧
    (fun s => unregister_active_timer_db s 7)^[3] init_db =
      unregister_active_timer_db init_db 7 :=
  ⟨(remove_absent_noop_idempotent init_db 7).1 (by decide),
   (remove_absent_noop_idempotent init_db 7).2 2⟩
